import Mathlib

/-!
Verification of the OPi.GPIO library (file `OPi/GPIO.py`) against its
natural-language specification.

The module-level GPIO functions and the `PWM` class are embedded shallowly:

* Real-valued arithmetic (Python floats) is modelled exactly over `ℚ`;
  Python's `round(x, 0)` (round half to even) is `pyRound`.
* Calls into the external `sysfs` control surface are recorded as trace
  events.  Each call consumes the next entry of an outcome list
  (`List (Option ℤ)`): `none` means the call succeeds, `some e` means it
  raises an `OSError` with that errno; an exhausted list means every
  remaining call succeeds.
* Python objects are mutated in place, so every operation returns the state
  as mutated so far together with the trace and an optional error — when an
  exception propagates, mutations already performed persist, exactly as in
  the source.
-/

namespace OPiGPIO

/- The arithmetic of `ℚ` is `@[irreducible]` in Batteries; re-open it locally
so that concrete runs of the embedded operations reduce under `decide`. -/
attribute [local semireducible] Rat.add Rat.sub Rat.mul Rat.inv

/-- Floor of a rational, written on the normalised `num`/`den` representation
so that concrete values reduce in the kernel. -/
def ratFloor (q : ℚ) : ℤ := q.num / (q.den : ℤ)

theorem ratFloor_eq (q : ℚ) : ratFloor q = ⌊q⌋ := Rat.floor_def.symm

/-- Python's `round(x, 0)`: round half to even. -/
def pyRound (q : ℚ) : ℤ :=
  if q - (ratFloor q : ℚ) < 1/2 then ratFloor q
  else if (1 : ℚ)/2 < q - (ratFloor q : ℚ) then ratFloor q + 1
  else if ratFloor q % 2 = 0 then ratFloor q else ratFloor q + 1

theorem le_pyRound (q : ℚ) : ⌊q⌋ ≤ pyRound q := by
  unfold pyRound
  rw [ratFloor_eq]
  split
  · exact le_refl _
  · split
    · omega
    · split <;> omega

theorem pyRound_le_floor_succ (q : ℚ) : pyRound q ≤ ⌊q⌋ + 1 := by
  unfold pyRound
  rw [ratFloor_eq]
  split
  · omega
  · split
    · omega
    · split <;> omega

theorem pyRound_le_of_le_int {q : ℚ} {n : ℤ} (h : q ≤ (n : ℚ)) : pyRound q ≤ n := by
  have hf : ⌊q⌋ ≤ n := by
    have := Int.floor_le_floor h
    rwa [Int.floor_intCast] at this
  rcases eq_or_lt_of_le hf with heq | hlt
  · have h0 : q - ((ratFloor q : ℤ) : ℚ) < 1/2 := by
      rw [ratFloor_eq, heq]
      have : q - (n : ℚ) ≤ 0 := by linarith
      linarith
    unfold pyRound
    rw [if_pos h0, ratFloor_eq, heq]
  · calc pyRound q ≤ ⌊q⌋ + 1 := pyRound_le_floor_succ q
      _ ≤ n := by omega

theorem pyRound_nonneg {q : ℚ} (h : 0 ≤ q) : 0 ≤ pyRound q :=
  le_trans (Int.floor_nonneg.mpr h) (le_pyRound q)

/-! ## PWM channel controller (`class PWM`) -/

/-- The mutable fields of a `PWM` object (`self.chip`, `self.pin`,
`self.frequency`, `self.duty_cycle_percent`, `self.invert_polarity`). -/
structure PWMState where
  chip : ℕ
  pin : ℕ
  frequency : ℚ
  duty_cycle_percent : ℚ
  invert_polarity : Bool
deriving DecidableEq, Repr

/-- One successful call into the sysfs PWM control surface. -/
inductive PwmEv where
  | exportDev
  | unexportDev
  | polarity (invert : Bool)
  | enable
  | disable
  | frequency (hz : ℚ)
  | period (ns : ℤ)
  | dutyCycleNs (ns : ℤ)
  | dutyCyclePercent (pct : ℚ)
  | warnBusy (pin : ℕ)
deriving DecidableEq, Repr

inductive PwmErr where
  | osError (errno : ℤ)
  | outOfRange
  | zeroDivision
deriving DecidableEq, Repr

/-- Result of a PWM operation: the object state as mutated so far, the trace
of successful control-surface calls, and the propagated exception if any. -/
structure PwmResult where
  state : PWMState
  trace : List PwmEv
  err : Option PwmErr
deriving DecidableEq, Repr

/-- Pop the next sysfs-call outcome; an exhausted list means success. -/
def takeOut : List (Option ℤ) → Option ℤ × List (Option ℤ)
  | [] => (none, [])
  | o :: rest => (o, rest)

/-- Issue a fixed sequence of control-surface calls, stopping at the first
one whose outcome is an error.  Returns the successful prefix of the trace,
the remaining outcomes, and the errno of the failed call if any. -/
def runCalls (outs : List (Option ℤ)) : List PwmEv → List PwmEv × List (Option ℤ) × Option ℤ
  | [] => ([], outs, none)
  | ev :: rest =>
    match takeOut outs with
    | (none, outs') =>
      ((ev :: (runCalls outs' rest).1, (runCalls outs' rest).2.1, (runCalls outs' rest).2.2))
    | (some e, outs') => ([], outs', some e)

theorem runCalls_nil : ∀ evs : List PwmEv, runCalls [] evs = (evs, [], none) := by
  intro evs
  induction evs with
  | nil => rfl
  | cons ev rest ih => simp [runCalls, takeOut, ih]

theorem runCalls_ok_trace :
    ∀ (evs : List PwmEv) (outs : List (Option ℤ)) (tr : List PwmEv)
      (outs' : List (Option ℤ)),
      runCalls outs evs = (tr, outs', none) → tr = evs := by
  intro evs
  induction evs with
  | nil =>
    intro outs tr outs' h
    simpa [runCalls] using congrArg Prod.fst h
  | cons ev rest ih =>
    intro outs tr outs' h
    rcases htk : takeOut outs with ⟨o, outs₁⟩
    cases o with
    | none =>
      rcases hrc : runCalls outs₁ rest with ⟨tr₁, outs₂, e₁⟩
      simp only [runCalls, htk, hrc, Prod.mk.injEq] at h
      obtain ⟨h1, _, h3⟩ := h
      subst h3
      rw [← h1, ih outs₁ tr₁ outs₂ hrc]
    | some e =>
      simp [runCalls, htk] at h

/-- `PWM.__init__`: records the constructor arguments, then inside a
`try` exports the chip/pin pair, writes the polarity, enables the channel and
sets the initial frequency.  If any of those raises errno 16 (resource busy)
it warns, unexports and re-exports — and does nothing further. -/
def pwm_init (outs : List (Option ℤ)) (chip pin : ℕ) (frequency duty_cycle_percent : ℚ)
    (invert_polarity : Bool := false) : PwmResult :=
  let st : PWMState := ⟨chip, pin, frequency, duty_cycle_percent, invert_polarity⟩
  match runCalls outs
      [PwmEv.exportDev, PwmEv.polarity invert_polarity, PwmEv.enable, PwmEv.frequency frequency] with
  | (tr, _, none) => ⟨st, tr, none⟩
  | (tr, outs', some e) =>
    if e = 16 then
      match runCalls outs' [PwmEv.unexportDev, PwmEv.exportDev] with
      | (tr2, _, none) => ⟨st, tr ++ PwmEv.warnBusy pin :: tr2, none⟩
      | (tr2, _, some e2) => ⟨st, tr ++ PwmEv.warnBusy pin :: tr2, some (PwmErr.osError e2)⟩
    else ⟨st, tr, some (PwmErr.osError e)⟩

/-- `PWM.change_frequency`: converts the new frequency to a period in
nanoseconds, recomputes the duty-cycle length, and writes the two attributes
in the order dictated by whether the period grows; the stored frequency is
assigned last. -/
def change_frequency (outs : List (Option ℤ)) (st : PWMState) (new_frequency : ℚ) : PwmResult :=
  if new_frequency = 0 then ⟨st, [], some PwmErr.zeroDivision⟩ else
  let pwm_period : ℤ := pyRound (1 / new_frequency * 1000000000)
  let dc : ℤ := pyRound (st.duty_cycle_percent / 100 * (pwm_period : ℚ))
  if st.frequency = 0 then ⟨st, [], some PwmErr.zeroDivision⟩ else
  let old_pwm_period : ℤ := pyRound (1 / st.frequency * 1000000000)
  let calls :=
    if old_pwm_period < pwm_period then [PwmEv.period pwm_period, PwmEv.dutyCycleNs dc]
    else [PwmEv.dutyCycleNs dc, PwmEv.period pwm_period]
  match runCalls outs calls with
  | (tr, _, none) => ⟨{ st with frequency := new_frequency }, tr, none⟩
  | (tr, _, some e) => ⟨st, tr, some (PwmErr.osError e)⟩

/-- `PWM.duty_cycle`: rejects a percentage outside `[0, 100]`; otherwise
assigns the stored percentage and then writes the duty-cycle attribute. -/
def duty_cycle (outs : List (Option ℤ)) (st : PWMState) (duty_cycle_percent : ℚ) : PwmResult :=
  if 0 ≤ duty_cycle_percent ∧ duty_cycle_percent ≤ 100 then
    let st' := { st with duty_cycle_percent := duty_cycle_percent }
    match runCalls outs [PwmEv.dutyCyclePercent duty_cycle_percent] with
    | (tr, _, none) => ⟨st', tr, none⟩
    | (tr, _, some e) => ⟨st', tr, some (PwmErr.osError e)⟩
  else ⟨st, [], some PwmErr.outOfRange⟩

/-! The sysfs control surface registers touched by `change_frequency`, for
stating the hardware invariant `duty_cycle_length ≤ period_length` at every
intermediate point of a write sequence. -/

structure Surface where
  period : ℤ
  duty : ℤ
deriving DecidableEq, Repr

def stepSurface (s : Surface) : PwmEv → Surface
  | PwmEv.period p => { s with period := p }
  | PwmEv.dutyCycleNs d => { s with duty := d }
  | _ => s

/-- `true` iff after each successive write the surface still satisfies
`duty ≤ period`. -/
def dutyWithinPeriod (s : Surface) : List PwmEv → Bool
  | [] => true
  | e :: rest =>
    decide ((stepSurface s e).duty ≤ (stepSurface s e).period) &&
      dutyWithinPeriod (stepSurface s e) rest

/-! ## Module-level GPIO state and operations -/

inductive Direction where
  | input
  | output
deriving DecidableEq, Repr

inductive Mode where
  | bcm
  | board
  | sunxi
  | custom
deriving DecidableEq, Repr

inductive Pud where
  | off
  | up
  | down
deriving DecidableEq, Repr

inductive Trigger where
  | rising
  | falling
  | both
deriving DecidableEq, Repr

/-- The module-level mutable state: `_mode`, `_gpio_warnings`, the export
ledger `_exports` (a dict, modelled as an association list whose keys are
unique in any state reachable through `setup`), and — for the `OPi.event`
collaborator — the set of pins with an active edge watch. -/
structure GpioState where
  mode : Option Mode
  gpio_warnings : Bool
  exports : List (ℕ × Direction)
  watching : List ℕ
deriving DecidableEq, Repr

/-- One observable effect of a module-level operation: a successful sysfs
call, an emitted advisory warning, or a call into the `OPi.event` engine. -/
inductive GEv where
  | exportDev (pin : ℕ)
  | unexportDev (pin : ℕ)
  | setDirection (pin : ℕ) (d : Direction)
  | writeValue (pin : ℕ) (v : Bool)
  | warnPud
  | warnBusy (channel : ℕ)
  | warnBounce
  | eventCleanup (pin : ℕ)
  | addEdgeDetect (pin : ℕ) (t : Trigger) (hasCallback : Bool)
  | addEdgeCallback (pin : ℕ)
deriving DecidableEq, Repr

inductive GpioErr where
  | modeNotSet
  | notConfigured (channel : ℕ)
  | wrongDirection (channel : ℕ)
  | alreadyConfigured (channel : ℕ)
  | alreadyWatching (pin : ℕ)
  | notWatching (pin : ℕ)
  | osError (errno : ℤ)
deriving DecidableEq, Repr

/-- Result of a module-level operation: the state as mutated so far, the
remaining sysfs outcomes, the trace, and the propagated exception if any. -/
structure GRes where
  state : GpioState
  outs : List (Option ℤ)
  trace : List GEv
  err : Option GpioErr
deriving DecidableEq, Repr

/-- A channel argument: a single channel or a list of channels. -/
inductive Chans where
  | one (c : ℕ)
  | many (cs : List ℕ)
deriving DecidableEq, Repr

/-- `_check_configured(channel, direction)`: `RuntimeError` when the channel
has no ledger entry, or when a direction is requested and differs from the
configured one. -/
def _check_configured (st : GpioState) (channel : ℕ) (direction : Option Direction) :
    Option GpioErr :=
  match st.exports.lookup channel with
  | none => some (GpioErr.notConfigured channel)
  | some configured =>
    match direction with
    | none => none
    | some d => if d ≠ configured then some (GpioErr.wrongDirection channel) else none

/-- Modelled from the spec: `event.cleanup(pin)` lives in `OPi/event.py`,
which is not among the provided sources.  Per the spec it "tears down any
active edge watch for the pin" and is safe to call when no watch exists. -/
def eventCleanupPin (st : GpioState) (pin : ℕ) : GpioState × List GEv :=
  ({ st with watching := st.watching.erase pin }, [GEv.eventCleanup pin])

/-- Modelled from the spec: `event.add_edge_detect(pin, trigger, cb)` in
`OPi/event.py` (not among the provided sources) moves the pin to `Watching`,
failing when the pin is already being watched. -/
def eventAddEdgeDetect (st : GpioState) (pin : ℕ) (t : Trigger) (hasCallback : Bool) :
    Except GpioErr (GpioState × List GEv) :=
  if pin ∈ st.watching then Except.error (GpioErr.alreadyWatching pin)
  else Except.ok ({ st with watching := pin :: st.watching },
    [GEv.addEdgeDetect pin t hasCallback])

/-- Modelled from the spec: `event.add_edge_callback(pin, cb)` in
`OPi/event.py` (not among the provided sources) appends a callback for a pin
that is already being watched, failing with NotWatching otherwise. -/
def eventAddEdgeCallback (st : GpioState) (pin : ℕ) :
    Except GpioErr (GpioState × List GEv) :=
  if pin ∈ st.watching then Except.ok (st, [GEv.addEdgeCallback pin])
  else Except.error (GpioErr.notWatching pin)

/-- The tail of single-channel `setup` after a successful export: set the
direction, record the ledger entry, and write the initial value for an
output channel when one was supplied. -/
def setupFinish (st : GpioState) (outs : List (Option ℤ)) (c : ℕ) (dir : Direction)
    (initial : Option Bool) (tr : List GEv) (pin : ℕ) : GRes :=
  match takeOut outs with
  | (some e, outs') => ⟨st, outs', tr, some (GpioErr.osError e)⟩
  | (none, outs') =>
    let st' := { st with exports := (c, dir) :: st.exports }
    match dir, initial with
    | Direction.output, some v =>
      match takeOut outs' with
      | (some e, outs'') =>
        ⟨st', outs'', tr ++ [GEv.setDirection pin dir], some (GpioErr.osError e)⟩
      | (none, outs'') =>
        ⟨st', outs'', tr ++ [GEv.setDirection pin dir, GEv.writeValue pin v], none⟩
    | _, _ => ⟨st', outs', tr ++ [GEv.setDirection pin dir], none⟩

/-- Single-channel `setup(channel, direction, initial)` (the path taken for
each member of a channel list, where `pull_up_down` is not forwarded): mode
check, already-configured check, export with the one-shot busy retry, then
`setupFinish`. -/
def setupSingle (resolve : Option Mode → ℕ → ℕ) (st : GpioState) (outs : List (Option ℤ))
    (c : ℕ) (dir : Direction) (initial : Option Bool) : GRes :=
  if st.mode = none then ⟨st, outs, [], some GpioErr.modeNotSet⟩
  else if (st.exports.lookup c).isSome then ⟨st, outs, [], some (GpioErr.alreadyConfigured c)⟩
  else
    let pin := resolve st.mode c
    match takeOut outs with
    | (none, outs') => setupFinish st outs' c dir initial [GEv.exportDev pin] pin
    | (some e, outs') =>
      if e = 16 then
        let tr := if st.gpio_warnings then [GEv.warnBusy c] else []
        match takeOut outs' with
        | (some e2, outs'') => ⟨st, outs'', tr, some (GpioErr.osError e2)⟩
        | (none, outs'') =>
          match takeOut outs'' with
          | (some e3, outs''') =>
            ⟨st, outs''', tr ++ [GEv.unexportDev pin], some (GpioErr.osError e3)⟩
          | (none, outs''') =>
            setupFinish st outs''' c dir initial
              (tr ++ [GEv.unexportDev pin, GEv.exportDev pin]) pin
      else ⟨st, outs', [], some (GpioErr.osError e)⟩

/-- The `for ch in channel:` loop shared by the batch variants of `setup`,
`output` and `cleanup`: apply the single-channel operation to each member in
order, threading state and stopping at the first propagated exception. -/
def runList (step : GpioState → List (Option ℤ) → ℕ → GRes) :
    GpioState → List (Option ℤ) → List ℕ → GRes
  | st, outs, [] => ⟨st, outs, [], none⟩
  | st, outs, c :: rest =>
    match (step st outs c).err with
    | some _ => step st outs c
    | none =>
      let r := step st outs c
      let r2 := runList step r.state r.outs rest
      ⟨r2.state, r2.outs, r.trace ++ r2.trace, r2.err⟩

/-- `setup(channel, direction, initial, pull_up_down)`: mode check, advisory
for the unimplemented pull-up/down hint, then the single-channel body or the
in-order loop over a channel list. -/
def setup (resolve : Option Mode → ℕ → ℕ) (st : GpioState) (outs : List (Option ℤ))
    (channel : Chans) (dir : Direction) (initial : Option Bool) (pud : Option Pud) : GRes :=
  if st.mode = none then ⟨st, outs, [], some GpioErr.modeNotSet⟩
  else
    let tr := if pud.isSome && st.gpio_warnings then [GEv.warnPud] else []
    let r :=
      match channel with
      | Chans.one c => setupSingle resolve st outs c dir initial
      | Chans.many cs => runList (fun s o c => setupSingle resolve s o c dir initial) st outs cs
    ⟨r.state, r.outs, tr ++ r.trace, r.err⟩

/-- Single-channel `output(channel, state)`: direction-guarded write of the
value attribute. -/
def outputSingle (resolve : Option Mode → ℕ → ℕ) (st : GpioState) (outs : List (Option ℤ))
    (c : ℕ) (v : Bool) : GRes :=
  match _check_configured st c (some Direction.output) with
  | some e => ⟨st, outs, [], some e⟩
  | none =>
    let pin := resolve st.mode c
    match takeOut outs with
    | (some e, outs') => ⟨st, outs', [], some (GpioErr.osError e)⟩
    | (none, outs') => ⟨st, outs', [GEv.writeValue pin v], none⟩

/-- `output(channel, state)`: single channel or in-order loop over a list. -/
def output (resolve : Option Mode → ℕ → ℕ) (st : GpioState) (outs : List (Option ℤ))
    (channel : Chans) (v : Bool) : GRes :=
  match channel with
  | Chans.one c => outputSingle resolve st outs c v
  | Chans.many cs => runList (fun s o c => outputSingle resolve s o c v) st outs cs

/-- Single-channel `cleanup(channel)`: check the ledger, tear down any edge
watch for the pin, unexport it and delete the ledger entry. -/
def cleanupSingle (resolve : Option Mode → ℕ → ℕ) (st : GpioState) (outs : List (Option ℤ))
    (c : ℕ) : GRes :=
  match _check_configured st c none with
  | some e => ⟨st, outs, [], some e⟩
  | none =>
    let pin := resolve st.mode c
    let st1 := (eventCleanupPin st pin).1
    match takeOut outs with
    | (some e, outs') => ⟨st1, outs', (eventCleanupPin st pin).2, some (GpioErr.osError e)⟩
    | (none, outs') =>
      ⟨{ st1 with exports := st1.exports.eraseP (fun p => p.1 == c) }, outs',
        (eventCleanupPin st pin).2 ++ [GEv.unexportDev pin], none⟩

/-- `cleanup(channel=None)`: no argument releases every ledgered channel and
then re-enables warnings and clears the numbering scheme; otherwise a single
channel or an in-order loop over a list. -/
def cleanup (resolve : Option Mode → ℕ → ℕ) (st : GpioState) (outs : List (Option ℤ))
    (channel : Option Chans) : GRes :=
  match channel with
  | none =>
    let r := runList (fun s o c => cleanupSingle resolve s o c) st outs
      (st.exports.map Prod.fst)
    match r.err with
    | some _ => r
    | none => ⟨{ r.state with gpio_warnings := true, mode := none }, r.outs, r.trace, none⟩
  | some (Chans.one c) => cleanupSingle resolve st outs c
  | some (Chans.many cs) => runList (fun s o c => cleanupSingle resolve s o c) st outs cs

/-- `add_event_detect(channel, trigger, callback, bouncetime)`: input-guarded;
a supplied `bouncetime` only produces an advisory warning (when warnings are
enabled) before the pin is handed to the event engine. -/
def add_event_detect (resolve : Option Mode → ℕ → ℕ) (st : GpioState)
    (outs : List (Option ℤ)) (c : ℕ) (t : Trigger) (hasCallback : Bool)
    (bouncetime : Option ℤ) : GRes :=
  match _check_configured st c (some Direction.input) with
  | some e => ⟨st, outs, [], some e⟩
  | none =>
    let tr := if bouncetime.isSome && st.gpio_warnings then [GEv.warnBounce] else []
    let pin := resolve st.mode c
    match eventAddEdgeDetect st pin t hasCallback with
    | Except.error e => ⟨st, outs, tr, some e⟩
    | Except.ok (st', tr') => ⟨st', outs, tr ++ tr', none⟩

/-- `add_event_callback(channel, callback, bouncetime)`: input-guarded; a
supplied `bouncetime` only produces an advisory warning (when warnings are
enabled) before the callback is appended by the event engine. -/
def add_event_callback (resolve : Option Mode → ℕ → ℕ) (st : GpioState)
    (outs : List (Option ℤ)) (c : ℕ) (bouncetime : Option ℤ) : GRes :=
  match _check_configured st c (some Direction.input) with
  | some e => ⟨st, outs, [], some e⟩
  | none =>
    let tr := if bouncetime.isSome && st.gpio_warnings then [GEv.warnBounce] else []
    let pin := resolve st.mode c
    match eventAddEdgeCallback st pin with
    | Except.error e => ⟨st, outs, tr, some e⟩
    | Except.ok (st', tr') => ⟨st', outs, tr ++ tr', none⟩

/-- A concrete resolver for witnesses: the identity pin mapping. -/
def resolveId : Option Mode → ℕ → ℕ := fun _ c => c

/-! ## Properties of the PWM controller -/

/-- C1: For every call to `change_frequency(new_frequency)`, the two
control-surface writes are ordered by the period comparison: when the new
period `round(1e9 / new_frequency)` is strictly greater than the old period,
the period attribute is written before the duty-cycle attribute; otherwise
the duty-cycle attribute is written before the period attribute.  Along
either sequence the surface never has duty-cycle-length exceeding
period-length at any intermediate point. -/
theorem change_frequency_write_order (st : PWMState) (nf : ℚ)
    (hnf : 0 < nf) (hf : 0 < st.frequency) (hpct : st.duty_cycle_percent ≤ 100) :
    (pyRound (1 / st.frequency * 1000000000) < pyRound (1 / nf * 1000000000) →
      (change_frequency [] st nf).trace =
        [PwmEv.period (pyRound (1 / nf * 1000000000)),
         PwmEv.dutyCycleNs
           (pyRound (st.duty_cycle_percent / 100 * (pyRound (1 / nf * 1000000000) : ℚ)))]) ∧
    (pyRound (1 / nf * 1000000000) ≤ pyRound (1 / st.frequency * 1000000000) →
      (change_frequency [] st nf).trace =
        [PwmEv.dutyCycleNs
           (pyRound (st.duty_cycle_percent / 100 * (pyRound (1 / nf * 1000000000) : ℚ))),
         PwmEv.period (pyRound (1 / nf * 1000000000))]) ∧
    (∀ s : Surface, s.duty ≤ s.period →
      s.period = pyRound (1 / st.frequency * 1000000000) →
      dutyWithinPeriod s (change_frequency [] st nf).trace = true) := by
  have hnf0 : ¬ nf = 0 := ne_of_gt hnf
  have hf0 : ¬ st.frequency = 0 := ne_of_gt hf
  have hp0 : (0:ℤ) ≤ pyRound (1 / nf * 1000000000) := pyRound_nonneg (by positivity)
  have hdp : pyRound (st.duty_cycle_percent / 100 * (pyRound (1 / nf * 1000000000) : ℚ))
      ≤ pyRound (1 / nf * 1000000000) := by
    apply pyRound_le_of_le_int
    have h1 : st.duty_cycle_percent / 100 ≤ 1 := by
      rw [div_le_one (by norm_num : (0:ℚ) < 100)]
      exact hpct
    have h2 : (0:ℚ) ≤ (pyRound (1 / nf * 1000000000) : ℚ) := by exact_mod_cast hp0
    calc st.duty_cycle_percent / 100 * (pyRound (1 / nf * 1000000000) : ℚ)
        ≤ 1 * (pyRound (1 / nf * 1000000000) : ℚ) := mul_le_mul_of_nonneg_right h1 h2
      _ = (pyRound (1 / nf * 1000000000) : ℚ) := one_mul _
  refine ⟨?_, ?_, ?_⟩
  · intro hcmp
    simp only [change_frequency, if_neg hnf0, if_neg hf0, if_pos hcmp, runCalls_nil]
  · intro hcmp
    have hcmp' : ¬ pyRound (1 / st.frequency * 1000000000) < pyRound (1 / nf * 1000000000) :=
      not_lt.mpr hcmp
    simp only [change_frequency, if_neg hnf0, if_neg hf0, if_neg hcmp', runCalls_nil]
  · intro s hs hsp
    by_cases hcmp : pyRound (1 / st.frequency * 1000000000) < pyRound (1 / nf * 1000000000)
    · simp only [change_frequency, if_neg hnf0, if_neg hf0, if_pos hcmp, runCalls_nil,
        dutyWithinPeriod, stepSurface, Bool.and_true, Bool.and_eq_true, decide_eq_true_eq]
      exact ⟨by omega, by omega⟩
    · simp only [change_frequency, if_neg hnf0, if_neg hf0, if_neg hcmp, runCalls_nil,
        dutyWithinPeriod, stepSurface, Bool.and_true, Bool.and_eq_true, decide_eq_true_eq]
      exact ⟨by omega, by omega⟩

/-- C1 witness: a PWM channel at 1000 Hz and 50% duty, retuned to 500 Hz. -/
theorem change_frequency_write_order_witness :
    (0:ℚ) < 500 ∧ (0:ℚ) < 1000 ∧ (50:ℚ) ≤ 100 ∧
    dutyWithinPeriod ⟨1000000, 500000⟩
      (change_frequency [] ⟨0, 0, 1000, 50, false⟩ 500).trace = true :=
  ⟨by decide, by decide, by decide,
   (change_frequency_write_order ⟨0, 0, 1000, 50, false⟩ 500 (by decide) (by decide)
       (by decide)).2.2 ⟨1000000, 500000⟩ (by decide) (by decide)⟩

/-- C2 counterexample: starting from 1000 Hz and 50% duty,
`change_frequency(500)` does write the period attribute first, but the
duty-cycle-length written is 1,000,000 ns, not 250,000,000 ns. -/
theorem change_frequency_500_cex :
    (change_frequency [] ⟨0, 0, 1000, 50, false⟩ 500).trace =
      [PwmEv.period 2000000, PwmEv.dutyCycleNs 1000000] ∧
    PwmEv.dutyCycleNs 250000000 ∉ (change_frequency [] ⟨0, 0, 1000, 50, false⟩ 500).trace := by
  decide

/-- C2 amended: for the channel constructed at 1000 Hz with 50% duty,
`change_frequency(500)` writes the period attribute (new period
`round(1e9/500)` = 2,000,000 ns) before the duty-cycle attribute, and the
duty-cycle-length written equals `round(2,000,000 * 0.5)` = 1,000,000 ns. -/
theorem change_frequency_500_scenario :
    (change_frequency [] ⟨0, 0, 1000, 50, false⟩ 500).trace =
      [PwmEv.period (pyRound ((1:ℚ) / 500 * 1000000000)),
       PwmEv.dutyCycleNs (pyRound ((50:ℚ) / 100 * 2000000))] ∧
    pyRound ((1:ℚ) / 500 * 1000000000) = 2000000 ∧
    pyRound ((50:ℚ) / 100 * 2000000) = 1000000 := by
  decide

/-- C3 counterexample: when the export reports a busy resource (errno 16),
`PWM.__init__` warns, unexports and re-exports — and returns without ever
setting polarity, enabling the channel, or applying the initial frequency. -/
theorem pwm_init_busy_cex :
    (pwm_init [some 16] 0 0 1000 50 false).err = none ∧
    (pwm_init [some 16] 0 0 1000 50 false).trace =
      [PwmEv.warnBusy 0, PwmEv.unexportDev, PwmEv.exportDev] ∧
    PwmEv.enable ∉ (pwm_init [some 16] 0 0 1000 50 false).trace ∧
    PwmEv.polarity false ∉ (pwm_init [some 16] 0 0 1000 50 false).trace ∧
    PwmEv.frequency 1000 ∉ (pwm_init [some 16] 0 0 1000 50 false).trace := by
  decide

/-- C3 amended: on the non-busy path construction exports the chip/pin pair,
sets polarity, enables the channel and applies the initial frequency, in
that order; when export reports a busy resource, the retry emits the
advisory and unexports/re-exports but performs none of the remaining steps. -/
theorem pwm_init_paths (chip pin : ℕ) (f pct : ℚ) (inv : Bool) :
    pwm_init [] chip pin f pct inv =
      ⟨⟨chip, pin, f, pct, inv⟩,
       [PwmEv.exportDev, PwmEv.polarity inv, PwmEv.enable, PwmEv.frequency f], none⟩ ∧
    pwm_init [some 16] chip pin f pct inv =
      ⟨⟨chip, pin, f, pct, inv⟩,
       [PwmEv.warnBusy pin, PwmEv.unexportDev, PwmEv.exportDev], none⟩ := by
  constructor <;> simp [pwm_init, runCalls, takeOut, runCalls_nil]

/-- C4: `change_frequency` assigns the stored frequency only after both
attribute writes succeed; whenever the call fails — a division error or
either write raising — the object state is left unchanged. -/
theorem change_frequency_state_update (outs : List (Option ℤ)) (st : PWMState) (nf : ℚ) :
    ((change_frequency outs st nf).err = none →
      (change_frequency outs st nf).state.frequency = nf ∧
      (change_frequency outs st nf).trace.length = 2) ∧
    ((change_frequency outs st nf).err ≠ none →
      (change_frequency outs st nf).state = st) := by
  by_cases h1 : nf = 0
  · simp [change_frequency, h1]
  · by_cases h2 : st.frequency = 0
    · simp [change_frequency, h1, h2]
    · rcases hrc : runCalls outs
        (if pyRound (1 / st.frequency * 1000000000) < pyRound (1 / nf * 1000000000) then
          [PwmEv.period (pyRound (1 / nf * 1000000000)),
           PwmEv.dutyCycleNs
             (pyRound (st.duty_cycle_percent / 100 * (pyRound (1 / nf * 1000000000) : ℚ)))]
         else
          [PwmEv.dutyCycleNs
             (pyRound (st.duty_cycle_percent / 100 * (pyRound (1 / nf * 1000000000) : ℚ))),
           PwmEv.period (pyRound (1 / nf * 1000000000))]) with ⟨tr, o', e⟩
      cases e with
      | none =>
        have htr := runCalls_ok_trace _ outs tr o' hrc
        have heq : change_frequency outs st nf = ⟨{ st with frequency := nf }, tr, none⟩ := by
          simp only [change_frequency, if_neg h1, if_neg h2, hrc]
        rw [heq]
        refine ⟨fun _ => ⟨rfl, ?_⟩, fun hcon => absurd rfl hcon⟩
        rw [htr]
        split <;> rfl
      | some e =>
        have heq : change_frequency outs st nf = ⟨st, tr, some (PwmErr.osError e)⟩ := by
          simp only [change_frequency, if_neg h1, if_neg h2, hrc]
        rw [heq]
        refine ⟨fun hcon => ?_, fun _ => rfl⟩
        simp at hcon

/-- C5: `duty_cycle(percent)` fails with the out-of-range error exactly when
the percentage lies outside `[0, 100]`; on that failure nothing is changed
and nothing is written, and for an in-range percentage the stored value is
updated and the duty-cycle attribute written. -/
theorem duty_cycle_range_check (outs : List (Option ℤ)) (st : PWMState) (pct : ℚ) :
    ((duty_cycle outs st pct).err = some PwmErr.outOfRange ↔ (pct < 0 ∨ 100 < pct)) ∧
    (pct < 0 ∨ 100 < pct → duty_cycle outs st pct = ⟨st, [], some PwmErr.outOfRange⟩) ∧
    (0 ≤ pct → pct ≤ 100 →
      (duty_cycle outs st pct).state.duty_cycle_percent = pct ∧
      ((duty_cycle outs st pct).err = none →
        (duty_cycle outs st pct).trace = [PwmEv.dutyCyclePercent pct])) := by
  by_cases hin : 0 ≤ pct ∧ pct ≤ 100
  · have hkey : ¬ (pct < 0 ∨ 100 < pct) := by
      push_neg
      exact ⟨hin.1, hin.2⟩
    rcases htk : takeOut outs with ⟨o, outs'⟩
    cases o with
    | none => simp [duty_cycle, hin, runCalls, htk, hkey]
    | some e => simp [duty_cycle, hin, runCalls, htk, hkey]
  · have hkey : pct < 0 ∨ 100 < pct := by
      rcases not_and_or.mp hin with h | h
      · exact Or.inl (not_le.mp h)
      · exact Or.inr (not_le.mp h)
    refine ⟨?_, ?_, ?_⟩
    · simp [duty_cycle, hin, hkey]
    · intro _
      simp [duty_cycle, hin]
    · intro ha hb
      exact absurd ⟨ha, hb⟩ hin

/-- C10: for an in-range percentage `duty_cycle` assigns the stored
percentage before issuing the attribute write, so even when the write fails
the stored field already holds the new value. -/
theorem duty_cycle_assign_before_write (outs : List (Option ℤ)) (st : PWMState) (pct : ℚ)
    (h0 : 0 ≤ pct) (h1 : pct ≤ 100) :
    (duty_cycle outs st pct).state.duty_cycle_percent = pct ∧
    (duty_cycle (some 5 :: outs) st pct).err = some (PwmErr.osError 5) ∧
    (duty_cycle (some 5 :: outs) st pct).state.duty_cycle_percent = pct := by
  have hin : 0 ≤ pct ∧ pct ≤ 100 := ⟨h0, h1⟩
  refine ⟨?_, ?_, ?_⟩
  · rcases htk : takeOut outs with ⟨o, outs'⟩
    cases o <;> simp [duty_cycle, hin, runCalls, htk]
  · simp [duty_cycle, hin, runCalls, takeOut]
  · simp [duty_cycle, hin, runCalls, takeOut]

/-- C10 witness: a failing duty-cycle write still leaves the stored
percentage at the freshly assigned value. -/
theorem duty_cycle_assign_before_write_witness :
    (0:ℚ) ≤ 30 ∧ (30:ℚ) ≤ 100 ∧
    (duty_cycle (some 5 :: []) ⟨0, 0, 1000, 50, false⟩ 30).err = some (PwmErr.osError 5) ∧
    (duty_cycle (some 5 :: []) ⟨0, 0, 1000, 50, false⟩ 30).state.duty_cycle_percent = 30 :=
  ⟨by decide, by decide,
   (duty_cycle_assign_before_write [] ⟨0, 0, 1000, 50, false⟩ 30 (by decide) (by decide)).2.1,
   (duty_cycle_assign_before_write [] ⟨0, 0, 1000, 50, false⟩ 30 (by decide) (by decide)).2.2⟩

/-! ## Properties of the module-level GPIO operations -/

theorem setupFinish_exports (st : GpioState) (outs : List (Option ℤ)) (c : ℕ)
    (dir : Direction) (initial : Option Bool) (tr : List GEv) (pin : ℕ) :
    (setupFinish st outs c dir initial tr pin).err = none →
    (setupFinish st outs c dir initial tr pin).state.exports = (c, dir) :: st.exports := by
  rcases h1 : takeOut outs with ⟨o, outs'⟩
  cases o with
  | some e => simp [setupFinish, h1]
  | none =>
    rcases h2 : takeOut outs' with ⟨o2, outs''⟩
    cases dir <;> cases initial <;> cases o2 <;> simp [setupFinish, h1, h2]

theorem setupSingle_exports (resolve : Option Mode → ℕ → ℕ) (st : GpioState)
    (outs : List (Option ℤ)) (c : ℕ) (dir : Direction) (initial : Option Bool) :
    (setupSingle resolve st outs c dir initial).err = none →
    (setupSingle resolve st outs c dir initial).state.exports = (c, dir) :: st.exports := by
  by_cases hm : st.mode = none
  · simp [setupSingle, hm]
  · by_cases hc : (st.exports.lookup c).isSome
    · simp [setupSingle, hm, hc]
    · rcases h1 : takeOut outs with ⟨o, outs'⟩
      cases o with
      | none =>
        simp only [setupSingle, if_neg hm, hc, Bool.false_eq_true, if_false, h1]
        exact setupFinish_exports st outs' c dir initial [GEv.exportDev (resolve st.mode c)]
          (resolve st.mode c)
      | some e =>
        by_cases he : e = 16
        · subst he
          rcases h2 : takeOut outs' with ⟨o2, outs''⟩
          cases o2 with
          | some e2 => simp [setupSingle, hm, hc, h1, h2]
          | none =>
            rcases h3 : takeOut outs'' with ⟨o3, outs'''⟩
            cases o3 with
            | some e3 => simp [setupSingle, hm, hc, h1, h2, h3]
            | none =>
              simp only [setupSingle, if_neg hm, hc, Bool.false_eq_true, if_false, h1, h2,
                h3, if_pos rfl]
              exact setupFinish_exports st outs''' c dir initial _ (resolve st.mode c)
        · simp [setupSingle, hm, hc, h1, he]

/-- C6: while no numbering scheme is set, `setup` fails with the mode-not-set
error for every channel (single or batch) and changes nothing; and after any
successful single-channel `setup(c, dir)`, `_check_configured(c, dir)` with
the same direction succeeds. -/
theorem setup_mode_guard_and_check (resolve : Option Mode → ℕ → ℕ) (st : GpioState)
    (outs outs₁ : List (Option ℤ)) (channel : Chans) (dir : Direction)
    (initial : Option Bool) (pud : Option Pud) (c₁ : ℕ) (dir₁ : Direction)
    (initial₁ : Option Bool) (pud₁ : Option Pud) :
    (st.mode = none →
      setup resolve st outs channel dir initial pud =
        ⟨st, outs, [], some GpioErr.modeNotSet⟩) ∧
    ((setup resolve st outs₁ (Chans.one c₁) dir₁ initial₁ pud₁).err = none →
      _check_configured (setup resolve st outs₁ (Chans.one c₁) dir₁ initial₁ pud₁).state
        c₁ (some dir₁) = none) := by
  constructor
  · intro hm
    simp [setup, hm]
  · intro hok
    by_cases hm : st.mode = none
    · simp [setup, hm] at hok
    · have her : (setup resolve st outs₁ (Chans.one c₁) dir₁ initial₁ pud₁).err =
          (setupSingle resolve st outs₁ c₁ dir₁ initial₁).err := by
        simp [setup, hm]
      have hst : (setup resolve st outs₁ (Chans.one c₁) dir₁ initial₁ pud₁).state =
          (setupSingle resolve st outs₁ c₁ dir₁ initial₁).state := by
        simp [setup, hm]
      rw [her] at hok
      rw [hst]
      unfold _check_configured
      rw [setupSingle_exports resolve st outs₁ c₁ dir₁ initial₁ hok]
      simp [List.lookup_cons]

/-- C6 witness: `setup` with no scheme set fails, and a successful
`setup(12, OUT)` passes the configured-direction check. -/
theorem setup_mode_guard_and_check_witness :
    setup resolveId ⟨none, true, [], []⟩ [] (Chans.one 3) Direction.input none none =
      ⟨⟨none, true, [], []⟩, [], [], some GpioErr.modeNotSet⟩ ∧
    _check_configured
      (setup resolveId ⟨some Mode.board, true, [], []⟩ [] (Chans.one 12) Direction.output
        (some false) none).state 12 (some Direction.output) = none :=
  ⟨(setup_mode_guard_and_check resolveId ⟨none, true, [], []⟩ [] [] (Chans.one 3)
      Direction.input none none 3 Direction.input none none).1 rfl,
   (setup_mode_guard_and_check resolveId ⟨some Mode.board, true, [], []⟩ [] [] (Chans.one 3)
      Direction.input none none 12 Direction.output (some false) none).2 (by decide)⟩

theorem lookup_eq_none_of_not_mem :
    ∀ (l : List (ℕ × Direction)) (c : ℕ), c ∉ l.map Prod.fst → l.lookup c = none := by
  intro l
  induction l with
  | nil => intro c _; rfl
  | cons a t ih =>
    intro c hc
    rcases a with ⟨k, d⟩
    simp only [List.map_cons, List.mem_cons] at hc
    push_neg at hc
    have h1 : (c == k) = false := beq_eq_false_iff_ne.mpr hc.1
    rw [List.lookup_cons, h1]
    exact ih c hc.2

theorem lookup_eraseP_self :
    ∀ (l : List (ℕ × Direction)), (l.map Prod.fst).Nodup → ∀ c : ℕ,
      (l.eraseP (fun p => p.1 == c)).lookup c = none := by
  intro l
  induction l with
  | nil => intro _ c; rfl
  | cons a t ih =>
    intro hnd c
    rcases a with ⟨k, d⟩
    simp only [List.map_cons, List.nodup_cons] at hnd
    by_cases hkc : k = c
    · have hb : (((k, d) : ℕ × Direction).1 == c) = true := beq_iff_eq.mpr hkc
      rw [List.eraseP_cons, hb]
      simp only [cond_true]
      subst hkc
      exact lookup_eq_none_of_not_mem t k hnd.1
    · have hb : (((k, d) : ℕ × Direction).1 == c) = false :=
        beq_eq_false_iff_ne.mpr hkc
      rw [List.eraseP_cons, hb]
      simp only [cond_false]
      have h1 : (c == k) = false := beq_eq_false_iff_ne.mpr (fun h => hkc h.symm)
      rw [List.lookup_cons, h1]
      exact ih hnd.2 c

/-- Draining the whole ledger: running the cleanup loop over exactly the
ledger's keys (with every sysfs call succeeding) empties the ledger and
touches neither the mode nor the warnings flag. -/
theorem cleanup_drain (resolve : Option Mode → ℕ → ℕ) :
    ∀ (l : List (ℕ × Direction)) (st : GpioState), st.exports = l →
      (runList (fun s o c => cleanupSingle resolve s o c) st [] (l.map Prod.fst)).err = none ∧
      (runList (fun s o c => cleanupSingle resolve s o c) st []
        (l.map Prod.fst)).state.exports = [] ∧
      (runList (fun s o c => cleanupSingle resolve s o c) st []
        (l.map Prod.fst)).state.mode = st.mode ∧
      (runList (fun s o c => cleanupSingle resolve s o c) st []
        (l.map Prod.fst)).state.gpio_warnings = st.gpio_warnings := by
  intro l
  induction l with
  | nil =>
    intro st h
    simp [runList, h]
  | cons a t ih =>
    intro st h
    rcases a with ⟨k, d⟩
    have hck : _check_configured st k none = none := by
      unfold _check_configured
      rw [h, List.lookup_cons, beq_self_eq_true]
    have hr1 : cleanupSingle resolve st [] k =
        ⟨{ st with watching := st.watching.erase (resolve st.mode k), exports := t }, [],
          [GEv.eventCleanup (resolve st.mode k), GEv.unexportDev (resolve st.mode k)],
          none⟩ := by
      simp only [cleanupSingle, hck, eventCleanupPin, takeOut, h]
      simp [List.eraseP_cons]
    have hih := ih
      { st with watching := st.watching.erase (resolve st.mode k), exports := t } rfl
    have hmap : ((k, d) :: t).map Prod.fst = k :: t.map Prod.fst := rfl
    rw [hmap]
    simp only [runList, hr1]
    exact ⟨hih.1, hih.2.1, hih.2.2.1, hih.2.2.2⟩

/-- C7: releasing a channel that was never configured fails with
NotConfigured and changes nothing; a successful single-channel `cleanup`
tears down any edge watch for the channel's pin, unexports it and removes
the ledger entry; and `cleanup()` with no argument, after releasing every
configured channel, also clears the numbering scheme and re-enables the
advisory warnings. -/
theorem cleanup_release (resolve : Option Mode → ℕ → ℕ) (st : GpioState)
    (outs : List (Option ℤ)) (c : ℕ)
    (hnd : (st.exports.map Prod.fst).Nodup) (hw : st.watching.Nodup) :
    (st.exports.lookup c = none →
      cleanup resolve st outs (some (Chans.one c)) =
        ⟨st, outs, [], some (GpioErr.notConfigured c)⟩) ∧
    ((cleanup resolve st outs (some (Chans.one c))).err = none →
      (cleanup resolve st outs (some (Chans.one c))).state.exports.lookup c = none ∧
      resolve st.mode c ∉ (cleanup resolve st outs (some (Chans.one c))).state.watching ∧
      (cleanup resolve st outs (some (Chans.one c))).trace =
        [GEv.eventCleanup (resolve st.mode c), GEv.unexportDev (resolve st.mode c)]) ∧
    ((cleanup resolve st [] none).err = none ∧
      (cleanup resolve st [] none).state.exports = [] ∧
      (cleanup resolve st [] none).state.mode = none ∧
      (cleanup resolve st [] none).state.gpio_warnings = true) := by
  refine ⟨?_, ?_, ?_⟩
  · intro hlc
    have hck : _check_configured st c none = some (GpioErr.notConfigured c) := by
      unfold _check_configured
      rw [hlc]
    simp [cleanup, cleanupSingle, hck]
  · intro hok
    cases hck : _check_configured st c none with
    | some e => simp [cleanup, cleanupSingle, hck] at hok
    | none =>
      rcases h1 : takeOut outs with ⟨o, outs'⟩
      cases o with
      | some e => simp [cleanup, cleanupSingle, hck, h1] at hok
      | none =>
        have heq : cleanup resolve st outs (some (Chans.one c)) =
            ⟨⟨st.mode, st.gpio_warnings, st.exports.eraseP (fun p => p.1 == c),
                st.watching.erase (resolve st.mode c)⟩, outs',
              [GEv.eventCleanup (resolve st.mode c), GEv.unexportDev (resolve st.mode c)],
              none⟩ := by
          simp only [cleanup, cleanupSingle, hck, eventCleanupPin, h1]
          rfl
        rw [heq]
        exact ⟨lookup_eraseP_self st.exports hnd c, hw.not_mem_erase, rfl⟩
  · have hd := cleanup_drain resolve st.exports st rfl
    have he := hd.1
    have heq : cleanup resolve st [] none =
        ⟨⟨none, true,
          (runList (fun s o c => cleanupSingle resolve s o c) st []
            (st.exports.map Prod.fst)).state.exports,
          (runList (fun s o c => cleanupSingle resolve s o c) st []
            (st.exports.map Prod.fst)).state.watching⟩,
          (runList (fun s o c => cleanupSingle resolve s o c) st []
            (st.exports.map Prod.fst)).outs,
          (runList (fun s o c => cleanupSingle resolve s o c) st []
            (st.exports.map Prod.fst)).trace, none⟩ := by
      unfold cleanup
      rcases hr : runList (fun s o c => cleanupSingle resolve s o c) st []
        (st.exports.map Prod.fst) with ⟨s2, o2, t2, e2⟩
      rw [hr] at he
      cases e2 with
      | none => rfl
      | some e => exact absurd he (by simp)
    rw [heq]
    exact ⟨rfl, hd.2.1, rfl, rfl⟩

/-- C7 witness: a ledger holding channel 5 as input with an active watch on
pin 5: releasing unconfigured channel 9 fails; releasing channel 5 removes
the ledger entry; the full cleanup clears the scheme and re-enables
warnings. -/
theorem cleanup_release_witness :
    cleanup resolveId ⟨some Mode.board, false, [(5, Direction.input)], [5]⟩ []
        (some (Chans.one 9)) =
      ⟨⟨some Mode.board, false, [(5, Direction.input)], [5]⟩, [], [],
        some (GpioErr.notConfigured 9)⟩ ∧
    (cleanup resolveId ⟨some Mode.board, false, [(5, Direction.input)], [5]⟩ []
        (some (Chans.one 5))).state.exports.lookup 5 = none ∧
    (cleanup resolveId ⟨some Mode.board, false, [(5, Direction.input)], [5]⟩ []
        none).state.mode = none :=
  ⟨(cleanup_release resolveId ⟨some Mode.board, false, [(5, Direction.input)], [5]⟩ [] 9
      (by decide) (by decide)).1 (by decide),
   ((cleanup_release resolveId ⟨some Mode.board, false, [(5, Direction.input)], [5]⟩ [] 5
      (by decide) (by decide)).2.1 (by decide)).1,
   (cleanup_release resolveId ⟨some Mode.board, false, [(5, Direction.input)], [5]⟩ [] 5
      (by decide) (by decide)).2.2.2.2.1⟩

/-- Splitting the batch loop after a successful prefix. -/
theorem runList_append_ok (step : GpioState → List (Option ℤ) → ℕ → GRes) :
    ∀ (cs₁ : List ℕ) (st : GpioState) (outs : List (Option ℤ)) (st₁ : GpioState)
      (o₁ : List (Option ℤ)) (t₁ : List GEv) (cs₂ : List ℕ),
      runList step st outs cs₁ = ⟨st₁, o₁, t₁, none⟩ →
      runList step st outs (cs₁ ++ cs₂) =
        ⟨(runList step st₁ o₁ cs₂).state, (runList step st₁ o₁ cs₂).outs,
          t₁ ++ (runList step st₁ o₁ cs₂).trace, (runList step st₁ o₁ cs₂).err⟩ := by
  intro cs₁
  induction cs₁ with
  | nil =>
    intro st outs st₁ o₁ t₁ cs₂ h
    simp only [runList, GRes.mk.injEq] at h
    obtain ⟨rfl, rfl, h3, -⟩ := h
    subst h3
    simp
  | cons c cs₁' ih =>
    intro st outs st₁ o₁ t₁ cs₂ h
    cases hse : (step st outs c).err with
    | some e =>
      rw [List.cons_append]
      simp only [runList, hse] at h ⊢
      have := congrArg GRes.err h
      simp [hse] at this
    | none =>
      rw [List.cons_append]
      simp only [runList, hse] at h ⊢
      rcases hr2 : runList step (step st outs c).state (step st outs c).outs cs₁'
        with ⟨s2, o2, t2, e2⟩
      rw [hr2] at h
      simp only [GRes.mk.injEq] at h
      obtain ⟨h1, h2, h3, h4⟩ := h
      have hih := ih (step st outs c).state (step st outs c).outs s2 o2 t2 cs₂
        (by rw [hr2, h4])
      rw [hih, h1, h2, ← h3]
      simp [List.append_assoc]

theorem runList_first_failure (step : GpioState → List (Option ℤ) → ℕ → GRes)
    (cs₁ : List ℕ) (c : ℕ) (cs₂ : List ℕ) (st : GpioState) (outs : List (Option ℤ))
    (st₁ : GpioState) (o₁ : List (Option ℤ)) (t₁ : List GEv) (e : GpioErr)
    (h1 : runList step st outs cs₁ = ⟨st₁, o₁, t₁, none⟩)
    (h2 : (step st₁ o₁ c).err = some e) :
    runList step st outs (cs₁ ++ c :: cs₂) =
      ⟨(step st₁ o₁ c).state, (step st₁ o₁ c).outs, t₁ ++ (step st₁ o₁ c).trace, some e⟩ := by
  rw [runList_append_ok step cs₁ st outs st₁ o₁ t₁ (c :: cs₂) h1]
  simp only [runList, h2]

/-- C8: the batch variants of `setup`, `output` and `cleanup` apply the
single-channel operation to each member of the list in order; the first
failing channel's exception propagates, and the state/trace accumulated by
the earlier channels (and by the failing call itself) stay in place. -/
theorem batch_first_failure (resolve : Option Mode → ℕ → ℕ) (dir : Direction)
    (initial : Option Bool) (v : Bool) (m : Mode) (st : GpioState)
    (outs : List (Option ℤ)) (cs₁ : List ℕ) (c : ℕ) (cs₂ : List ℕ) (st₁ : GpioState)
    (o₁ : List (Option ℤ)) (t₁ : List GEv) (e : GpioErr) :
    (st.mode = some m →
      runList (fun s o ch => setupSingle resolve s o ch dir initial) st outs cs₁ =
        ⟨st₁, o₁, t₁, none⟩ →
      (setupSingle resolve st₁ o₁ c dir initial).err = some e →
      setup resolve st outs (Chans.many (cs₁ ++ c :: cs₂)) dir initial none =
        ⟨(setupSingle resolve st₁ o₁ c dir initial).state,
         (setupSingle resolve st₁ o₁ c dir initial).outs,
         t₁ ++ (setupSingle resolve st₁ o₁ c dir initial).trace, some e⟩) ∧
    (runList (fun s o ch => outputSingle resolve s o ch v) st outs cs₁ =
        ⟨st₁, o₁, t₁, none⟩ →
      (outputSingle resolve st₁ o₁ c v).err = some e →
      output resolve st outs (Chans.many (cs₁ ++ c :: cs₂)) v =
        ⟨(outputSingle resolve st₁ o₁ c v).state, (outputSingle resolve st₁ o₁ c v).outs,
         t₁ ++ (outputSingle resolve st₁ o₁ c v).trace, some e⟩) ∧
    (runList (fun s o ch => cleanupSingle resolve s o ch) st outs cs₁ =
        ⟨st₁, o₁, t₁, none⟩ →
      (cleanupSingle resolve st₁ o₁ c).err = some e →
      cleanup resolve st outs (some (Chans.many (cs₁ ++ c :: cs₂))) =
        ⟨(cleanupSingle resolve st₁ o₁ c).state, (cleanupSingle resolve st₁ o₁ c).outs,
         t₁ ++ (cleanupSingle resolve st₁ o₁ c).trace, some e⟩) := by
  refine ⟨?_, ?_, ?_⟩
  · intro hm hpre hfail
    have hmn : ¬ st.mode = none := by simp [hm]
    have hrun := runList_first_failure (fun s o ch => setupSingle resolve s o ch dir initial)
      cs₁ c cs₂ st outs st₁ o₁ t₁ e hpre hfail
    simp [setup, hmn, hrun]
  · intro hpre hfail
    have hrun := runList_first_failure (fun s o ch => outputSingle resolve s o ch v)
      cs₁ c cs₂ st outs st₁ o₁ t₁ e hpre hfail
    simp [output, hrun]
  · intro hpre hfail
    have hrun := runList_first_failure (fun s o ch => cleanupSingle resolve s o ch)
      cs₁ c cs₂ st outs st₁ o₁ t₁ e hpre hfail
    simp [cleanup, hrun]

/-- C8 witness: setting up `[1, 2]` and then channel 2 again fails on the
second 2 with AlreadyConfigured while channel 1 and 2 stay configured;
output over `[7]` fails on the input channel 7; cleanup over `[9]` fails on
the unconfigured channel 9. -/
theorem batch_first_failure_witness :
    setup resolveId ⟨some Mode.board, true, [], []⟩ [] (Chans.many ([1] ++ 1 :: [3]))
        Direction.output none none =
      ⟨⟨some Mode.board, true, [(1, Direction.output)], []⟩, [],
        [GEv.exportDev 1, GEv.setDirection 1 Direction.output],
        some (GpioErr.alreadyConfigured 1)⟩ ∧
    output resolveId ⟨some Mode.board, true, [(7, Direction.input)], []⟩ []
        (Chans.many ([] ++ 7 :: [])) true =
      ⟨⟨some Mode.board, true, [(7, Direction.input)], []⟩, [], [],
        some (GpioErr.wrongDirection 7)⟩ ∧
    cleanup resolveId ⟨some Mode.board, true, [], []⟩ []
        (some (Chans.many ([] ++ 9 :: []))) =
      ⟨⟨some Mode.board, true, [], []⟩, [], [], some (GpioErr.notConfigured 9)⟩ :=
  ⟨(batch_first_failure resolveId Direction.output none true Mode.board
      ⟨some Mode.board, true, [], []⟩ [] [1] 1 [3]
      ⟨some Mode.board, true, [(1, Direction.output)], []⟩ []
      [GEv.exportDev 1, GEv.setDirection 1 Direction.output]
      (GpioErr.alreadyConfigured 1)).1 rfl (by decide) (by decide),
   (batch_first_failure resolveId Direction.output none true Mode.board
      ⟨some Mode.board, true, [(7, Direction.input)], []⟩ [] [] 7 []
      ⟨some Mode.board, true, [(7, Direction.input)], []⟩ [] []
      (GpioErr.wrongDirection 7)).2.1 (by decide) (by decide),
   (batch_first_failure resolveId Direction.output none true Mode.board
      ⟨some Mode.board, true, [], []⟩ [] [] 9 []
      ⟨some Mode.board, true, [], []⟩ [] []
      (GpioErr.notConfigured 9)).2.2 (by decide) (by decide)⟩

/-- C9 counterexample: a negative `bouncetime` of -200 passes
`add_event_detect` without any validation failure, and the whole result —
state, trace and outcome — is identical to the call with `bouncetime` 200:
the value is neither validated non-negative nor recorded anywhere. -/
theorem bouncetime_not_validated_cex :
    (add_event_detect resolveId ⟨some Mode.board, true, [(7, Direction.input)], []⟩ [] 7
      Trigger.rising false (some (-200))).err = none ∧
    add_event_detect resolveId ⟨some Mode.board, true, [(7, Direction.input)], []⟩ [] 7
        Trigger.rising false (some (-200)) =
      add_event_detect resolveId ⟨some Mode.board, true, [(7, Direction.input)], []⟩ [] 7
        Trigger.rising false (some 200) := by
  decide

/-- C9 amended: a supplied `bouncetime` influences neither the outcome nor
the recorded state of `add_event_detect` / `add_event_callback` — the call's
result is independent of the value, negative values included; its only
effect is a generic advisory warning emitted at registration time when
warnings are enabled, and with warnings disabled it is silently ignored. -/
theorem bouncetime_advisory_only (resolve : Option Mode → ℕ → ℕ) (st : GpioState)
    (outs : List (Option ℤ)) (c : ℕ) (t : Trigger) (hasCallback : Bool) (bt bt' : ℤ) :
    (add_event_detect resolve st outs c t hasCallback (some bt) =
      add_event_detect resolve st outs c t hasCallback (some bt')) ∧
    (add_event_callback resolve st outs c (some bt) =
      add_event_callback resolve st outs c (some bt')) ∧
    (_check_configured st c (some Direction.input) = none → st.gpio_warnings = true →
      GEv.warnBounce ∈ (add_event_detect resolve st outs c t hasCallback (some bt)).trace) ∧
    (st.gpio_warnings = false →
      GEv.warnBounce ∉ (add_event_detect resolve st outs c t hasCallback (some bt)).trace) := by
  refine ⟨rfl, rfl, ?_, ?_⟩
  · intro hck hw
    cases hadd : eventAddEdgeDetect st (resolve st.mode c) t hasCallback with
    | error e => simp [add_event_detect, hck, hw, hadd]
    | ok r => simp [add_event_detect, hck, hw, hadd]
  · intro hw
    cases hck : _check_configured st c (some Direction.input) with
    | some e => simp [add_event_detect, hck]
    | none =>
      cases hadd : eventAddEdgeDetect st (resolve st.mode c) t hasCallback with
      | error e => simp [add_event_detect, hck, hw, hadd]
      | ok r =>
        rcases r with ⟨st', tr'⟩
        have : tr' = [GEv.addEdgeDetect (resolve st.mode c) t hasCallback] := by
          unfold eventAddEdgeDetect at hadd
          split at hadd
          · cases hadd
          · cases hadd
            rfl
        simp [add_event_detect, hck, hw, hadd, this]

/-- C9 amended witness: on a configured input channel with warnings enabled
the advisory is emitted and the result is independent of the bouncetime. -/
theorem bouncetime_advisory_only_witness :
    (add_event_detect resolveId ⟨some Mode.board, true, [(7, Direction.input)], []⟩ [] 7
        Trigger.rising false (some (-200)) =
      add_event_detect resolveId ⟨some Mode.board, true, [(7, Direction.input)], []⟩ [] 7
        Trigger.rising false (some 999)) ∧
    GEv.warnBounce ∈ (add_event_detect resolveId
      ⟨some Mode.board, true, [(7, Direction.input)], []⟩ [] 7 Trigger.rising false
      (some (-200))).trace :=
  ⟨(bouncetime_advisory_only resolveId ⟨some Mode.board, true, [(7, Direction.input)], []⟩
      [] 7 Trigger.rising false (-200) 999).1,
   (bouncetime_advisory_only resolveId ⟨some Mode.board, true, [(7, Direction.input)], []⟩
      [] 7 Trigger.rising false (-200) 999).2.2.1 (by decide) rfl⟩

end OPiGPIO
